import Mathlib

/-!
Shallow embedding of the reconciliation core of `credrails-reconciler`
(`src/credrails/reconciler/lib/csv_reconciler.py`), together with theorems
settling the specification claims about it.

Modelling conventions:
* A CSV record (a row produced by `csv.DictReader`, i.e. an ordered `dict`
  from column name to string value) is an association list
  `List (String × String)`.  A Python `dict` has pairwise-distinct keys;
  where behaviour depends on that invariant it appears as a `Nodup`
  hypothesis.
* Python `None` appearing as a value (e.g. `target.get(column, None)`) is
  `Option String`'s `none`.
* Exceptions become an explicit error type; generator functions that can
  raise become `Except`-valued functions, and the CSV writer returns the
  rows written so far next to the error, modelling the side effects already
  performed when the exception is raised.
* Python `set` iteration order is unspecified; the embedding fixes one
  concrete order (`List.dedup` of the key list).  No claim depends on the
  order of set iteration.
-/

/-- Ordered mapping from column name to value, the shape of one row produced
by `csv.DictReader`.  The first pair's column is the identity column. -/
abbrev CSVRecord := List (String × String)

/-- Python `record.get(column, None)` on a record: the value bound to the
first occurrence of `column`, or `none` when the column is absent.  For a
well-formed record (distinct keys, as in a Python `dict`) the first
occurrence is the only one. -/
def dictGet (record : CSVRecord) (column : String) : Option String :=
  (record.find? (fun p => p.1 == column)).map Prod.snd

/-- The error taxonomy of `csv_reconciler.py` (subclasses of
`ReconcilerError`): `RecordIDMissingError` and `UnsupportedDiffTypeError`.
Error messages are not modelled; no claim depends on them. -/
inductive ReconcilerError
  | recordIDMissing
  | unsupportedDiffType
deriving DecidableEq, Repr

/-- The `CSVDiffKinds` string enumeration. -/
inductive CSVDiffKinds
  | extraTgtField
  | fieldMismatch
  | notInSource
  | notInTarget
deriving DecidableEq, Repr

/-- The string value of each `CSVDiffKinds` member (`StrEnum` values). -/
def CSVDiffKinds.value : CSVDiffKinds → String
  | .extraTgtField => "Extra Target Column"
  | .fieldMismatch => "Field Discrepancy"
  | .notInSource => "Missing in Source"
  | .notInTarget => "Missing in Target"

/-- The `CSVDiff` frozen attrs class: kind, record id and the three optional
fields (`field`, `source_value`, `target_value`, all defaulting to `None`). -/
structure CSVDiff where
  kind : CSVDiffKinds
  record_id : String
  field : Option String := none
  source_value : Option String := none
  target_value : Option String := none
deriving DecidableEq, Repr

/-- Python `f"... {x}"` interpolation of an `Optional[str]`: `None` renders
as the string `"None"`. -/
def pyFormat : Option String → String
  | none => "None"
  | some s => s

/-- The `CSVDiff.expected` property. -/
def CSVDiff.expected (d : CSVDiff) : String :=
  match d.kind with
  | .notInTarget => "Record: " ++ d.record_id
  | .fieldMismatch => "Value: " ++ pyFormat d.source_value
  | _ => ""

/-- The `CSVDiff.found` property. -/
def CSVDiff.found (d : CSVDiff) : String :=
  match d.kind with
  | .extraTgtField => "Column: " ++ pyFormat d.field
  | .fieldMismatch => "Value: " ++ pyFormat d.target_value
  | .notInSource => "Record: " ++ d.record_id
  | _ => ""

/-- The `CSVDiff.of_extra_target_field` factory class method. -/
def CSVDiff.ofExtraTargetField (record_id fieldName : String) : CSVDiff :=
  { kind := .extraTgtField, record_id := record_id, field := some fieldName }

/-- The `CSVDiff.of_field_mismatch` factory class method.  The engine passes
`target.get(column, None)` as the target value, so it may be `None`; the
source value always comes from an existing column and is a string. -/
def CSVDiff.ofFieldMismatch (record_id fieldName : String)
    (source_value : String) (target_value : Option String) : CSVDiff :=
  { kind := .fieldMismatch, record_id := record_id, field := some fieldName,
    source_value := some source_value, target_value := target_value }

/-- The `CSVDiff.of_not_in_source` factory class method. -/
def CSVDiff.ofNotInSource (record_id : String) : CSVDiff :=
  { kind := .notInSource, record_id := record_id }

/-- The `CSVDiff.of_not_in_target` factory class method. -/
def CSVDiff.ofNotInTarget (record_id : String) : CSVDiff :=
  { kind := .notInTarget, record_id := record_id }

/-- Characters removed by Python `str.strip()` (the ASCII whitespace set;
the inputs this model ranges over are ASCII). -/
def isPythonSpace (c : Char) : Bool :=
  c == ' ' || c == '\t' || c == '\n' || c == '\r' || c == '\x0b' || c == '\x0c'

/-- Python `str.strip()`: remove leading and trailing whitespace. -/
def pyStrip (s : String) : String :=
  ⟨((s.data.dropWhile isPythonSpace).reverse.dropWhile isPythonSpace).reverse⟩

/-- Python `str.lower()` (ASCII case mapping, sufficient for this model). -/
def pyLower (s : String) : String :=
  ⟨s.data.map Char.toLower⟩

/-- The `SimpleCSVRecordDiffer._sanitize_value` static method: a string is
stripped of leading/trailing whitespace (`value.strip()`) and lower-cased
(`.lower()`); any non-string value (here: Python `None`) is returned
unchanged. -/
def sanitizeValue : Option String → Option String
  | none => none
  | some s => some (pyLower (pyStrip s))

/-- The `SimpleCSVRecordDiffer._check_for_field_mismatch` static method:
iterate the source record's columns in order (iterating a `dict` yields its
keys; `source[column]` is then exactly the pair's value, the keys being
distinct), sanitize the source value and `target.get(column, None)`, and
yield a field-mismatch diff carrying the unsanitized values whenever the
sanitized values differ. -/
def checkForFieldMismatch (source target : CSVRecord) (record_id : String) :
    List CSVDiff :=
  source.filterMap fun p =>
    let src_val : String := p.2
    let tgt_val : Option String := dictGet target p.1
    if sanitizeValue (some src_val) = sanitizeValue tgt_val then none
    else some (CSVDiff.ofFieldMismatch record_id p.1 src_val tgt_val)

/-- The `SimpleCSVRecordDiffer._check_for_extra_tgt_fields` static method:
`set(target_fields).difference(set(source_fields))`, one
extra-target-field diff per element.  The embedding iterates the set
difference as `target_fields.dedup` filtered by non-membership in
`source_fields`; Python's set iteration order is unspecified and no claim
depends on it. -/
def checkForExtraTgtFields (source_fields target_fields : List String)
    (record_id : String) : List CSVDiff :=
  ((target_fields.dedup).filter (fun c => decide (c ∉ source_fields))).map
    (fun c => CSVDiff.ofExtraTargetField record_id c)

/-- The `SimpleCSVRecordDiffer.compare` method.  Iterating the generator
raises `RecordIDMissingError` when `record_id` is `None`; otherwise it
yields the field-mismatch diffs followed by the extra-target-field diffs
(iterating a record as an iterable of field names yields its keys). -/
def SimpleCSVRecordDiffer.compare (source target : CSVRecord)
    (record_id : Option String) : Except ReconcilerError (List CSVDiff) :=
  match record_id with
  | none => .error .recordIDMissing
  | some rid =>
      .ok (checkForFieldMismatch source target rid ++
        checkForExtraTgtFields (source.map Prod.fst) (target.map Prod.fst) rid)

/-- The diff list produced by `SimpleCSVRecordDiffer.compare` when a record
id is supplied (the only way the engine invokes it). -/
def simpleComparePair (source target : CSVRecord) (record_id : String) :
    List CSVDiff :=
  checkForFieldMismatch source target record_id ++
    checkForExtraTgtFields (source.map Prod.fst) (target.map Prod.fst) record_id

/-- An unresolved-records buffer of the engine: a Python `dict` from record
id to record, preserving insertion order. -/
abbrev UnresolvedBuffer := List (String × CSVRecord)

/-- Python `buf[key] = record` on a `dict`: an existing key keeps its
position and gets the new value; a new key is appended. -/
def dictSetItem (buf : UnresolvedBuffer) (key : String) (record : CSVRecord) :
    UnresolvedBuffer :=
  if buf.any (fun p => p.1 == key) then
    buf.map (fun p => if p.1 == key then (key, record) else p)
  else
    buf ++ [(key, record)]

/-- Python `key in buf` on a `dict`, and the lookup used by `buf.pop(key)`:
the record stored under `key`, when present. -/
def dictFind (buf : UnresolvedBuffer) (key : String) : Option CSVRecord :=
  (buf.find? (fun p => p.1 == key)).map Prod.snd

/-- The removal effect of Python `buf.pop(key)` on a `dict`: the entry is
deleted, the order of the remaining entries is preserved. -/
def dictPop (buf : UnresolvedBuffer) (key : String) : UnresolvedBuffer :=
  buf.eraseP (fun p => p.1 == key)

/-- The mutable state of one `CSVReconciler.reconcile` run: the two
unresolved-record buffers. -/
structure ReconcilerState where
  unresolved_src_records : UnresolvedBuffer
  unresolved_tgt_records : UnresolvedBuffer
deriving Repr

/-- Python `itertools.zip_longest` on two lists, padding the shorter side
with `None`. -/
def zipLongest : List CSVRecord → List CSVRecord →
    List (Option CSVRecord × Option CSVRecord)
  | [], ys => ys.map (fun y => (none, some y))
  | x :: xs, [] => (some x, none) :: zipLongest xs []
  | x :: xs, y :: ys => (some x, some y) :: zipLongest xs ys

/-- One iteration of the `for src_record, tgt_record in zip_longest(...)`
loop body of `CSVReconciler.reconcile`, returning the diffs yielded at this
step and the updated buffers.  Pattern order mirrors the `if`/`elif` chain
and Python truthiness: a padded `None` and an empty record are both falsy.
`_get_record_id_column` is `next(iter(record))`, the first column name, so
`record[id_column]` is the first pair's value (keys of a `dict` being
distinct). -/
def reconcileStep (state : ReconcilerState) :
    Option CSVRecord × Option CSVRecord → List CSVDiff × ReconcilerState
  | (some (sp :: srest), some (tp :: trest)) =>
      let src_record := sp :: srest
      let tgt_record := tp :: trest
      let src_id := sp.2
      let tgt_id := tp.2
      if src_id = tgt_id then
        (simpleComparePair src_record tgt_record src_id, state)
      else
        ([], { state with
               unresolved_src_records :=
                 dictSetItem state.unresolved_src_records src_id src_record,
               unresolved_tgt_records :=
                 dictSetItem state.unresolved_tgt_records tgt_id tgt_record })
  | (some (sp :: srest), _) =>
      let src_record := sp :: srest
      let src_id := sp.2
      match dictFind state.unresolved_tgt_records src_id with
      | some tgt_record =>
          (simpleComparePair src_record tgt_record src_id,
           { state with
             unresolved_tgt_records :=
               dictPop state.unresolved_tgt_records src_id })
      | none =>
          ([], { state with
                 unresolved_src_records :=
                   dictSetItem state.unresolved_src_records src_id src_record })
  | (_, some (tp :: trest)) =>
      let tgt_record := tp :: trest
      let tgt_id := tp.2
      match dictFind state.unresolved_src_records tgt_id with
      | some src_record =>
          (simpleComparePair src_record tgt_record tgt_id,
           { state with
             unresolved_src_records :=
               dictPop state.unresolved_src_records tgt_id })
      | none =>
          ([], { state with
                 unresolved_tgt_records :=
                   dictSetItem state.unresolved_tgt_records tgt_id tgt_record })
  | _ => ([], state)

/-- The generator body of `CSVReconciler.reconcile`: run the lock-step loop
over the `zip_longest` pairs, then flush the remaining buffers into
missing-record diffs (source side first, then target side, each in buffer
insertion order). -/
def reconcileGo (state : ReconcilerState) :
    List (Option CSVRecord × Option CSVRecord) → List CSVDiff
  | [] =>
      state.unresolved_src_records.map (fun p => CSVDiff.ofNotInTarget p.1) ++
        state.unresolved_tgt_records.map (fun p => CSVDiff.ofNotInSource p.1)
  | p :: ps =>
      let r := reconcileStep state p
      r.1 ++ reconcileGo r.2 ps

/-- The `CSVReconciler.reconcile` method with the default
`SimpleCSVRecordDiffer`, applied to the two already-parsed record streams:
the full diff sequence it yields. -/
def CSVReconciler.reconcile (source target : List CSVRecord) : List CSVDiff :=
  reconcileGo ⟨[], []⟩ (zipLongest source target)

/-- The lock-step loop of `reconcile` without the final buffer flush: the
diffs yielded inside the `for` loop (paired-record diffs) and the final
buffer state.  Auxiliary, used to state the emission-order claim. -/
def reconcileRows (state : ReconcilerState) :
    List (Option CSVRecord × Option CSVRecord) → List CSVDiff × ReconcilerState
  | [] => ([], state)
  | p :: ps =>
      let r := reconcileStep state p
      let rest := reconcileRows r.2 ps
      (r.1 ++ rest.1, rest.2)

/-- The final flush of `reconcile`: one `NOT_IN_TARGET` diff per entry left
in the source-side buffer, then one `NOT_IN_SOURCE` diff per entry left in
the target-side buffer, in insertion order. -/
def flushUnresolved (state : ReconcilerState) : List CSVDiff :=
  state.unresolved_src_records.map (fun p => CSVDiff.ofNotInTarget p.1) ++
    state.unresolved_tgt_records.map (fun p => CSVDiff.ofNotInSource p.1)

/-- A `Diff[str]` instance as seen by `CSVDiffWriter.write`: either a
`CSVDiff` or an instance of some other `Diff` subclass (identified here
only by its kind and record id; `write` never inspects non-`CSVDiff`
payloads). -/
inductive StreamedDiff
  | csv (diff : CSVDiff)
  | other (kindName : String) (record_id : String)
deriving DecidableEq, Repr

/-- One row written by `csv.DictWriter.writerow(attrs.asdict(diff))`: the
five attribute values of a `CSVDiff` in field order. -/
structure CSVRow where
  kind : String
  record_id : String
  field : Option String
  source_value : Option String
  target_value : Option String
deriving DecidableEq, Repr

/-- The row `attrs.asdict` produces for a `CSVDiff` (the `StrEnum` kind
renders as its string value). -/
def CSVDiff.toRow (d : CSVDiff) : CSVRow :=
  ⟨d.kind.value, d.record_id, d.field, d.source_value, d.target_value⟩

/-- The `CSVDiffWriter.write` method: iterate the diffs, raising
`UnsupportedDiffTypeError` at the first diff that is not a `CSVDiff` and
writing one row per preceding `CSVDiff`.  Returns the rows written to the
underlying writable together with the raised error, if any. -/
def CSVDiffWriter.write : List StreamedDiff → List CSVRow × Option ReconcilerError
  | [] => ([], none)
  | .csv d :: rest =>
      let r := CSVDiffWriter.write rest
      (CSVDiff.toRow d :: r.1, r.2)
  | .other _ _ :: _ => ([], some .unsupportedDiffType)

/-! Helper lemmas about the differ functions. -/

lemma ofFieldMismatch_inj {r1 r2 c1 c2 v1 v2 : String} {t1 t2 : Option String} :
    CSVDiff.ofFieldMismatch r1 c1 v1 t1 = CSVDiff.ofFieldMismatch r2 c2 v2 t2 ↔
      r1 = r2 ∧ c1 = c2 ∧ v1 = v2 ∧ t1 = t2 := by
  simp [CSVDiff.ofFieldMismatch, CSVDiff.mk.injEq]

lemma ofExtraTargetField_injective (record_id : String) :
    Function.Injective (CSVDiff.ofExtraTargetField record_id) := by
  intro a b h
  simpa [CSVDiff.ofExtraTargetField, CSVDiff.mk.injEq] using h

lemma mem_checkForFieldMismatch {source target : CSVRecord} {record_id : String}
    {d : CSVDiff} :
    d ∈ checkForFieldMismatch source target record_id ↔
      ∃ c v, (c, v) ∈ source ∧
        sanitizeValue (some v) ≠ sanitizeValue (dictGet target c) ∧
        d = CSVDiff.ofFieldMismatch record_id c v (dictGet target c) := by
  unfold checkForFieldMismatch
  rw [List.mem_filterMap]
  constructor
  · rintro ⟨⟨c, v⟩, hmem, hf⟩
    by_cases hcond : sanitizeValue (some v) = sanitizeValue (dictGet target c)
    · simp [hcond] at hf
    · simp only [hcond, if_false, Option.some_inj] at hf
      exact ⟨c, v, hmem, hcond, hf.symm⟩
  · rintro ⟨c, v, hmem, hcond, rfl⟩
    exact ⟨(c, v), hmem, by simp [hcond]⟩

lemma mem_checkForExtraTgtFields {source_fields target_fields : List String}
    {record_id : String} {d : CSVDiff} :
    d ∈ checkForExtraTgtFields source_fields target_fields record_id ↔
      ∃ c, c ∈ target_fields ∧ c ∉ source_fields ∧
        d = CSVDiff.ofExtraTargetField record_id c := by
  unfold checkForExtraTgtFields
  constructor
  · intro hd
    rcases List.mem_map.mp hd with ⟨c, hc, rfl⟩
    rcases List.mem_filter.mp hc with ⟨hcd, hcs⟩
    exact ⟨c, List.mem_dedup.mp hcd, of_decide_eq_true hcs, rfl⟩
  · rintro ⟨c, hct, hcs, rfl⟩
    exact List.mem_map.mpr ⟨c,
      List.mem_filter.mpr ⟨List.mem_dedup.mpr hct, decide_eq_true hcs⟩, rfl⟩

lemma count_checkForExtraTgtFields {source_fields target_fields : List String}
    {record_id c : String} (h1 : c ∈ target_fields) (h2 : c ∉ source_fields) :
    (checkForExtraTgtFields source_fields target_fields record_id).count
      (CSVDiff.ofExtraTargetField record_id c) = 1 := by
  unfold checkForExtraTgtFields
  rw [List.count_map_of_injective _ _ (ofExtraTargetField_injective record_id)]
  apply List.count_eq_one_of_mem
  · exact (List.nodup_dedup target_fields).filter _
  · exact List.mem_filter.mpr ⟨List.mem_dedup.mpr h1, decide_eq_true h2⟩

/-- C3: for a pair of records compared by the default differ with a given
record id, a field-mismatch diff for a source column with value `v` is
emitted iff the sanitized source value and the sanitized target lookup
differ (an absent target column being `None`), and every emitted
field-mismatch diff carries the unsanitized original source and target
values. -/
theorem claim_C3 (source target : CSVRecord) (record_id : String) :
    (∀ c v, (c, v) ∈ source →
      (CSVDiff.ofFieldMismatch record_id c v (dictGet target c) ∈
          checkForFieldMismatch source target record_id ↔
        sanitizeValue (some v) ≠ sanitizeValue (dictGet target c))) ∧
    (∀ d ∈ checkForFieldMismatch source target record_id,
      ∃ c v, (c, v) ∈ source ∧
        d = CSVDiff.ofFieldMismatch record_id c v (dictGet target c) ∧
        sanitizeValue (some v) ≠ sanitizeValue (dictGet target c)) := by
  constructor
  · intro c v _hmem
    constructor
    · intro hd
      rcases mem_checkForFieldMismatch.mp hd with ⟨c2, v2, _hmem2, hcond2, heq⟩
      rcases ofFieldMismatch_inj.mp heq with ⟨-, hc, hv, -⟩
      rw [hc, hv]
      exact hcond2
    · intro hcond
      exact mem_checkForFieldMismatch.mpr ⟨c, v, _hmem, hcond, rfl⟩
  · intro d hd
    rcases mem_checkForFieldMismatch.mp hd with ⟨c, v, hmem, hcond, rfl⟩
    exact ⟨c, v, hmem, rfl, hcond⟩

/-- Witness for C3: Scenario C, evaluated concretely. -/
theorem claim_C3_witness :
    CSVDiff.ofFieldMismatch "1" "v" "A" (dictGet [("id", "1"), ("v", "B")] "v") ∈
      checkForFieldMismatch [("id", "1"), ("v", "A")] [("id", "1"), ("v", "B")] "1" :=
  ((claim_C3 [("id", "1"), ("v", "A")] [("id", "1"), ("v", "B")] "1").1
    "v" "A" (by decide)).mpr (by decide)

/-- C4: for a paired comparison, every column in the target-minus-source
set difference yields exactly one extra-target-field diff and no
field-mismatch diff, and a column present in the source never yields an
extra-target-field diff. -/
theorem claim_C4 (source target : CSVRecord) (record_id c : String) :
    (c ∈ target.map Prod.fst ∧ c ∉ source.map Prod.fst →
      (checkForExtraTgtFields (source.map Prod.fst) (target.map Prod.fst)
          record_id).count (CSVDiff.ofExtraTargetField record_id c) = 1 ∧
      ∀ d ∈ checkForFieldMismatch source target record_id, d.field ≠ some c) ∧
    (c ∈ source.map Prod.fst →
      ∀ d ∈ checkForExtraTgtFields (source.map Prod.fst) (target.map Prod.fst)
          record_id, d.field ≠ some c) := by
  constructor
  · rintro ⟨h1, h2⟩
    refine ⟨count_checkForExtraTgtFields h1 h2, ?_⟩
    intro d hd
    rcases mem_checkForFieldMismatch.mp hd with ⟨c2, v2, hmem, -, rfl⟩
    have hc2 : c2 ∈ source.map Prod.fst := List.mem_map_of_mem Prod.fst hmem
    simp only [CSVDiff.ofFieldMismatch, ne_eq, Option.some_inj]
    rintro rfl
    exact h2 hc2
  · intro hc d hd
    rcases mem_checkForExtraTgtFields.mp hd with ⟨c2, -, hc2, rfl⟩
    simp only [CSVDiff.ofExtraTargetField, ne_eq, Option.some_inj]
    rintro rfl
    exact hc2 hc

/-- Witness for C4: Scenario B, evaluated concretely. -/
theorem claim_C4_witness :
    (checkForExtraTgtFields ["id", "name"] ["id", "name", "age"] "1").count
      (CSVDiff.ofExtraTargetField "1" "age") = 1 :=
  ((claim_C4 [("id", "1"), ("name", "Bob")]
      [("id", "1"), ("name", "Bob"), ("age", "30")] "1" "age").1
    ⟨by decide, by decide⟩).1

/-- C5: iterating the generator returned by the default differ's `compare`
raises `RecordIDMissingError` before yielding any diff when no record id
was supplied, and never raises it when one was supplied. -/
theorem claim_C5 (source target : CSVRecord) :
    SimpleCSVRecordDiffer.compare source target none =
      .error .recordIDMissing ∧
    ∀ record_id : String,
      SimpleCSVRecordDiffer.compare source target (some record_id) =
        .ok (simpleComparePair source target record_id) :=
  ⟨rfl, fun _ => rfl⟩

/-- C6: the `expected` and `found` projections of a `CSVDiff` follow the
kind-dependent table of the specification. -/
theorem claim_C6 (d : CSVDiff) :
    (d.kind = .notInTarget →
      d.expected = "Record: " ++ d.record_id ∧ d.found = "") ∧
    (d.kind = .notInSource →
      d.expected = "" ∧ d.found = "Record: " ++ d.record_id) ∧
    (d.kind = .fieldMismatch →
      d.expected = "Value: " ++ pyFormat d.source_value ∧
      d.found = "Value: " ++ pyFormat d.target_value) ∧
    (d.kind = .extraTgtField →
      d.expected = "" ∧ d.found = "Column: " ++ pyFormat d.field) := by
  rcases d with ⟨k, rid, f, sv, tv⟩
  cases k <;> simp [CSVDiff.expected, CSVDiff.found]

/-- Witness for C6: a concrete field-mismatch diff. -/
theorem claim_C6_witness :
    (CSVDiff.ofFieldMismatch "1" "v" "A" (some "B")).expected = "Value: A" ∧
    (CSVDiff.ofFieldMismatch "1" "v" "A" (some "B")).found = "Value: B" := by
  have h := (claim_C6 (CSVDiff.ofFieldMismatch "1" "v" "A" (some "B"))).2.2.1 rfl
  exact ⟨h.1.trans rfl, h.2.trans rfl⟩

/-! Helper lemmas about the CSV diff writer. -/

lemma write_map_csv (cs : List CSVDiff) :
    CSVDiffWriter.write (cs.map StreamedDiff.csv) = (cs.map CSVDiff.toRow, none) := by
  induction cs with
  | nil => rfl
  | cons c rest ih => simp [CSVDiffWriter.write, ih]

lemma write_err_of_mem_other (diffs : List StreamedDiff)
    (h : ∃ d ∈ diffs, ∀ c : CSVDiff, d ≠ .csv c) :
    (CSVDiffWriter.write diffs).2 = some .unsupportedDiffType := by
  induction diffs with
  | nil => simp at h
  | cons d rest ih =>
    cases d with
    | csv c =>
      rcases h with ⟨w, hw, hnc⟩
      rcases List.mem_cons.mp hw with rfl | h2
      · exact absurd rfl (hnc c)
      · simpa [CSVDiffWriter.write] using ih ⟨w, h2, hnc⟩
    | other k r => simp [CSVDiffWriter.write]

/-- C7: the tabular sink's `write` raises `UnsupportedDiffTypeError` when
the diff sequence contains a diff that is not a `CSVDiff`, and on an
all-`CSVDiff` sequence raises nothing and writes one row per diff, in
production order. -/
theorem claim_C7 (diffs : List StreamedDiff) :
    ((∃ d ∈ diffs, ∀ c : CSVDiff, d ≠ .csv c) →
      (CSVDiffWriter.write diffs).2 = some .unsupportedDiffType) ∧
    ∀ cs : List CSVDiff, diffs = cs.map StreamedDiff.csv →
      CSVDiffWriter.write diffs = (cs.map CSVDiff.toRow, none) := by
  refine ⟨fun h => write_err_of_mem_other diffs h, ?_⟩
  rintro cs rfl
  exact write_map_csv cs

/-- Witness for C7: a one-element unsupported sequence raises, a
one-element supported sequence writes its row and raises nothing. -/
theorem claim_C7_witness :
    (CSVDiffWriter.write [StreamedDiff.other "X" "9"]).2 =
      some ReconcilerError.unsupportedDiffType ∧
    CSVDiffWriter.write [StreamedDiff.csv (CSVDiff.ofNotInTarget "1")] =
      ([CSVDiff.toRow (CSVDiff.ofNotInTarget "1")], none) :=
  ⟨(claim_C7 [StreamedDiff.other "X" "9"]).1
      ⟨StreamedDiff.other "X" "9", by simp, by simp⟩,
   (claim_C7 [StreamedDiff.csv (CSVDiff.ofNotInTarget "1")]).2
      [CSVDiff.ofNotInTarget "1"] rfl⟩

/-- C10: when the first k diffs are `CSVDiff`s and the next one is not,
exactly those k rows are written to the writable before
`UnsupportedDiffTypeError` is raised; nothing is undone. -/
theorem claim_C10 (written : List CSVDiff) (bad : StreamedDiff)
    (rest : List StreamedDiff) (h : ∀ c : CSVDiff, bad ≠ .csv c) :
    CSVDiffWriter.write (written.map StreamedDiff.csv ++ bad :: rest) =
      (written.map CSVDiff.toRow, some .unsupportedDiffType) := by
  induction written with
  | nil =>
    cases bad with
    | csv c => exact absurd rfl (h c)
    | other k r => rfl
  | cons c cs ih => simp [CSVDiffWriter.write, ih]

/-- Witness for C10: one supported diff, one unsupported diff, one
trailing supported diff; exactly the first row is written. -/
theorem claim_C10_witness :
    CSVDiffWriter.write
        [StreamedDiff.csv (CSVDiff.ofNotInTarget "1"), StreamedDiff.other "X" "9",
          StreamedDiff.csv (CSVDiff.ofNotInSource "2")] =
      ([CSVDiff.toRow (CSVDiff.ofNotInTarget "1")],
        some ReconcilerError.unsupportedDiffType) :=
  claim_C10 [CSVDiff.ofNotInTarget "1"] (StreamedDiff.other "X" "9")
    [StreamedDiff.csv (CSVDiff.ofNotInSource "2")] (by simp)

/-- C1 fails on the code: on Scenario E (equal-length, reordered but
otherwise identical streams) the diff sequence is not empty.  The
both-present branch of the loop never consults the unresolved buffers, so
with streams of equal length the buffer-recovery path never runs. -/
theorem claim_C1_counterexample :
    CSVReconciler.reconcile
        [[("id", "1"), ("name", "alice")], [("id", "2"), ("name", "bob")]]
        [[("id", "2"), ("name", "bob")], [("id", "1"), ("name", "alice")]] ≠
      [] := by decide

/-- C1 amended: on the Scenario E input the engine buffers both records of
both steps and flushes them at end of input, yielding `NOT_IN_TARGET` for
source ids 1 and 2 followed by `NOT_IN_SOURCE` for target ids 2 and 1. -/
theorem claim_C1_amended :
    CSVReconciler.reconcile
        [[("id", "1"), ("name", "alice")], [("id", "2"), ("name", "bob")]]
        [[("id", "2"), ("name", "bob")], [("id", "1"), ("name", "alice")]] =
      [CSVDiff.ofNotInTarget "1", CSVDiff.ofNotInTarget "2",
        CSVDiff.ofNotInSource "2", CSVDiff.ofNotInSource "1"] := by decide

/-! Helper lemmas about the engine state. -/

lemma keys_dictSetItem (buf : UnresolvedBuffer) (key : String)
    (record : CSVRecord) (h : (buf.map Prod.fst).Nodup) :
    ((dictSetItem buf key record).map Prod.fst).Nodup := by
  unfold dictSetItem
  split
  · have hkeys : (buf.map (fun p => if p.1 == key then (key, record) else p)).map
        Prod.fst = buf.map Prod.fst := by
      rw [List.map_map]
      apply List.map_congr_left
      intro p _hp
      by_cases hk : p.1 = key <;> simp [hk]
    rw [hkeys]
    exact h
  · rename_i hany
    have hkey : key ∉ buf.map Prod.fst := by
      intro hmem
      rcases List.mem_map.mp hmem with ⟨p, hp, rfl⟩
      exact hany (List.any_eq_true.mpr ⟨p, hp, by simp⟩)
    rw [List.map_append]
    exact h.append (List.nodup_singleton key)
      (by simpa [List.disjoint_singleton] using hkey)

lemma keys_dictPop (buf : UnresolvedBuffer) (key : String)
    (h : (buf.map Prod.fst).Nodup) :
    ((dictPop buf key).map Prod.fst).Nodup :=
  List.Nodup.sublist ((List.eraseP_sublist buf).map Prod.fst) h

lemma reconcileStep_nodup (state : ReconcilerState)
    (p : Option CSVRecord × Option CSVRecord)
    (hs : (state.unresolved_src_records.map Prod.fst).Nodup)
    (ht : (state.unresolved_tgt_records.map Prod.fst).Nodup) :
    (((reconcileStep state p).2.unresolved_src_records.map Prod.fst).Nodup ∧
      ((reconcileStep state p).2.unresolved_tgt_records.map Prod.fst).Nodup) := by
  rcases p with ⟨_ | (_ | ⟨sp, srest⟩), _ | (_ | ⟨tp, trest⟩)⟩
  · exact ⟨hs, ht⟩
  · exact ⟨hs, ht⟩
  · rcases hf : dictFind state.unresolved_src_records tp.2 with _ | sr <;>
      simp only [reconcileStep, hf]
    · exact ⟨hs, keys_dictSetItem _ _ _ ht⟩
    · exact ⟨keys_dictPop _ _ hs, ht⟩
  · exact ⟨hs, ht⟩
  · exact ⟨hs, ht⟩
  · rcases hf : dictFind state.unresolved_src_records tp.2 with _ | sr <;>
      simp only [reconcileStep, hf]
    · exact ⟨hs, keys_dictSetItem _ _ _ ht⟩
    · exact ⟨keys_dictPop _ _ hs, ht⟩
  · rcases hf : dictFind state.unresolved_tgt_records sp.2 with _ | tr <;>
      simp only [reconcileStep, hf]
    · exact ⟨keys_dictSetItem _ _ _ hs, ht⟩
    · exact ⟨hs, keys_dictPop _ _ ht⟩
  · rcases hf : dictFind state.unresolved_tgt_records sp.2 with _ | tr <;>
      simp only [reconcileStep, hf]
    · exact ⟨keys_dictSetItem _ _ _ hs, ht⟩
    · exact ⟨hs, keys_dictPop _ _ ht⟩
  · simp only [reconcileStep]
    split
    · exact ⟨hs, ht⟩
    · exact ⟨keys_dictSetItem _ _ _ hs, keys_dictSetItem _ _ _ ht⟩

lemma reconcileRows_nodup (ps : List (Option CSVRecord × Option CSVRecord))
    (state : ReconcilerState)
    (hs : (state.unresolved_src_records.map Prod.fst).Nodup)
    (ht : (state.unresolved_tgt_records.map Prod.fst).Nodup) :
    (((reconcileRows state ps).2.unresolved_src_records.map Prod.fst).Nodup ∧
      ((reconcileRows state ps).2.unresolved_tgt_records.map Prod.fst).Nodup) := by
  induction ps generalizing state with
  | nil => exact ⟨hs, ht⟩
  | cons p ps ih =>
    simp only [reconcileRows]
    rcases reconcileStep_nodup state p hs ht with ⟨h1, h2⟩
    exact ih _ h1 h2

lemma reconcileGo_eq_rows (ps : List (Option CSVRecord × Option CSVRecord))
    (state : ReconcilerState) :
    reconcileGo state ps =
      (reconcileRows state ps).1 ++ flushUnresolved (reconcileRows state ps).2 := by
  induction ps generalizing state with
  | nil => rfl
  | cons p ps ih =>
    simp only [reconcileGo, reconcileRows]
    rw [ih]
    simp [List.append_assoc]

/-- C2: the whole diff sequence of a reconciliation run is the
paired-record diffs yielded inside the lock-step loop, followed by one
`NOT_IN_TARGET` diff per entry left in the source-side unresolved buffer
(in buffer insertion order), followed by one `NOT_IN_SOURCE` diff per
entry left in the target-side unresolved buffer (in buffer insertion
order); the keys of both final buffers are pairwise distinct, so there is
exactly one such diff per remaining record id. -/
theorem claim_C2 (source target : List CSVRecord) :
    CSVReconciler.reconcile source target =
      (reconcileRows ⟨[], []⟩ (zipLongest source target)).1 ++
        flushUnresolved (reconcileRows ⟨[], []⟩ (zipLongest source target)).2 ∧
    (((reconcileRows ⟨[], []⟩
        (zipLongest source target)).2.unresolved_src_records.map
          Prod.fst).Nodup ∧
      ((reconcileRows ⟨[], []⟩
        (zipLongest source target)).2.unresolved_tgt_records.map
          Prod.fst).Nodup) :=
  ⟨reconcileGo_eq_rows (zipLongest source target) ⟨[], []⟩,
   reconcileRows_nodup (zipLongest source target) ⟨[], []⟩
     (by simp) (by simp)⟩

/-- C9: when only the source side is present at a step, the engine pops
and compares against a buffered target record with the same id when one
exists, and otherwise stores the source record in the source-side buffer;
symmetrically when only the target side is present. -/
theorem claim_C9 (state : ReconcilerState) (sp tp : String × String)
    (srest trest : CSVRecord) :
    (∀ tgt_record,
      dictFind state.unresolved_tgt_records sp.2 = some tgt_record →
        reconcileStep state (some (sp :: srest), none) =
          (simpleComparePair (sp :: srest) tgt_record sp.2,
            { state with
                unresolved_tgt_records :=
                  dictPop state.unresolved_tgt_records sp.2 })) ∧
    (dictFind state.unresolved_tgt_records sp.2 = none →
      reconcileStep state (some (sp :: srest), none) =
        ([], { state with
            unresolved_src_records :=
              dictSetItem state.unresolved_src_records sp.2 (sp :: srest) })) ∧
    (∀ src_record,
      dictFind state.unresolved_src_records tp.2 = some src_record →
        reconcileStep state (none, some (tp :: trest)) =
          (simpleComparePair src_record (tp :: trest) tp.2,
            { state with
                unresolved_src_records :=
                  dictPop state.unresolved_src_records tp.2 })) ∧
    (dictFind state.unresolved_src_records tp.2 = none →
      reconcileStep state (none, some (tp :: trest)) =
        ([], { state with
            unresolved_tgt_records :=
              dictSetItem state.unresolved_tgt_records tp.2 (tp :: trest) })) := by
  refine ⟨?_, ?_, ?_, ?_⟩
  · intro tgt_record h
    simp [reconcileStep, h]
  · intro h
    simp [reconcileStep, h]
  · intro src_record h
    simp [reconcileStep, h]
  · intro h
    simp [reconcileStep, h]

/-- Witness for C9: a source-only step resolving a previously buffered
target record with the same id. -/
theorem claim_C9_witness :
    reconcileStep ⟨[], [("1", [("id", "1")])]⟩ (some [("id", "1")], none) =
      (simpleComparePair [("id", "1")] [("id", "1")] "1",
        ⟨[], dictPop [("1", [("id", "1")])] "1"⟩) :=
  (claim_C9 ⟨[], [("1", [("id", "1")])]⟩ ("id", "1") ("id", "1") [] []).1
    [("id", "1")] rfl

/-! Helper lemmas for reconciling a stream against itself. -/

lemma dictGet_of_mem {record : CSVRecord} {c v : String}
    (hnd : (record.map Prod.fst).Nodup) (hmem : (c, v) ∈ record) :
    dictGet record c = some v := by
  induction record with
  | nil => simp at hmem
  | cons p rest ih =>
    rw [List.map_cons, List.nodup_cons] at hnd
    rcases List.mem_cons.mp hmem with heq | h2
    · subst heq
      simp [dictGet]
    · have hp : (p.1 == c) = false := by
        rw [beq_eq_false_iff_ne]
        rintro rfl
        exact hnd.1 (List.mem_map.mpr ⟨_, h2, rfl⟩)
      have htail := ih hnd.2 h2
      unfold dictGet at htail ⊢
      rw [List.find?_cons, hp]
      exact htail

lemma checkForFieldMismatch_self (record : CSVRecord) (record_id : String)
    (hnd : (record.map Prod.fst).Nodup) :
    checkForFieldMismatch record record record_id = [] := by
  unfold checkForFieldMismatch
  rw [List.filterMap_eq_nil_iff]
  rintro ⟨c, v⟩ hp
  simp [dictGet_of_mem hnd hp]

lemma checkForExtraTgtFields_self (fields : List String) (record_id : String) :
    checkForExtraTgtFields fields fields record_id = [] := by
  unfold checkForExtraTgtFields
  have hfil : fields.dedup.filter (fun c => decide (c ∉ fields)) = [] := by
    rw [List.filter_eq_nil_iff]
    intro c hc
    simp [List.mem_dedup.mp hc]
  rw [hfil, List.map_nil]

lemma simpleComparePair_self (record : CSVRecord) (record_id : String)
    (hnd : (record.map Prod.fst).Nodup) :
    simpleComparePair record record record_id = [] := by
  unfold simpleComparePair
  rw [checkForFieldMismatch_self record record_id hnd,
    checkForExtraTgtFields_self, List.nil_append]

lemma reconcileStep_self (state : ReconcilerState) (record : CSVRecord)
    (hnd : (record.map Prod.fst).Nodup) :
    reconcileStep state (some record, some record) = ([], state) := by
  cases record with
  | nil => rfl
  | cons p rest =>
    simp [reconcileStep, simpleComparePair_self (p :: rest) p.2 hnd]

lemma zipLongest_self (records : List CSVRecord) :
    zipLongest records records = records.map (fun r => (some r, some r)) := by
  induction records with
  | nil => rfl
  | cons r rest ih => simp [zipLongest, ih]

lemma reconcileGo_self (state : ReconcilerState) (records : List CSVRecord)
    (h : ∀ r ∈ records, (r.map Prod.fst).Nodup) :
    reconcileGo state (records.map (fun r => (some r, some r))) =
      flushUnresolved state := by
  induction records generalizing state with
  | nil => rfl
  | cons r rest ih =>
    simp only [List.map_cons, reconcileGo]
    rw [reconcileStep_self state r (h r (List.mem_cons_self r rest))]
    simpa using ih state (fun x hx => h x (List.mem_cons_of_mem r hx))

/-- C8: reconciling a record stream against an identical copy of itself
yields the empty diff sequence (for well-formed records, i.e. records with
pairwise-distinct column names, as every Python `dict` has). -/
theorem claim_C8 (records : List CSVRecord)
    (h : ∀ r ∈ records, (r.map Prod.fst).Nodup) :
    CSVReconciler.reconcile records records = [] := by
  unfold CSVReconciler.reconcile
  rw [zipLongest_self, reconcileGo_self ⟨[], []⟩ records h]
  rfl

/-- Witness for C8: a concrete two-record stream reconciled against
itself. -/
theorem claim_C8_witness :
    CSVReconciler.reconcile
        [[("id", "1"), ("name", "alice")], [("id", "2"), ("name", "bob")]]
        [[("id", "1"), ("name", "alice")], [("id", "2"), ("name", "bob")]] =
      [] :=
  claim_C8 [[("id", "1"), ("name", "alice")], [("id", "2"), ("name", "bob")]]
    (by decide)
